import Mathlib

/-!
Verification development for the EVE-MI mining bot.

The perception helpers of `vision.py` (`find_text_in_region`,
`read_inventory_tooltip`, `scan_overview`'s row reconciliation,
`_parse_distance`) and the controller handlers of `bot_logic.py`
(`_handle_scanning`, `_handle_locking`, `_check_cargo`,
`_handle_traveling`) are embedded shallowly below.

Modelling conventions:
* Python floats are modelled as rationals (`ℚ`); every float literal of the
  source is an exact decimal, so the arithmetic of the embedded code paths is
  exact over `ℚ`.
* Python strings are modelled as `String` / `List Char`; the string helpers
  (`strip`, `lower`, `split`, substring `in`) are re-implemented over
  `List Char` with Python's semantics for the ASCII texts the program sees.
* Screen capture and the OCR engine are the environment: each OCR invocation
  is modelled as the list of word boxes (`Token`) or the raw text it returned,
  supplied as an argument.  `difflib.SequenceMatcher(...).ratio()` is modelled
  as an oracle parameter `ratio`; the claims proved here do not depend on its
  values.
* Code that raises (float parsing) is modelled with `Option`; the enclosing
  `try/except` blocks of the source become `Option` case splits.
-/

namespace EVEMI

/-- Python whitespace characters (`str.strip`, `str.split()`, `\s` in `re`)
restricted to the ASCII range that the program's OCR texts contain. -/
def isPySpace (c : Char) : Bool :=
  c = ' ' || c = '\t' || c = '\n' || c = '\r' || c = '\x0b' || c = '\x0c'

/-- Python `str.strip()` over a character list. -/
def listTrim (cs : List Char) : List Char :=
  ((cs.dropWhile isPySpace).reverse.dropWhile isPySpace).reverse

/-- Python `str.lower()` over a character list (ASCII texts). -/
def lowerCh (cs : List Char) : List Char :=
  cs.map Char.toLower

/-- `chStarts needle hay` holds when `needle` is an initial segment of `hay`. -/
def chStarts : List Char → List Char → Bool
  | [], _ => true
  | _ :: _, [] => false
  | a :: as, b :: bs => a = b && chStarts as bs

/-- Python's substring test `needle in hay` over character lists. -/
def chSub : List Char → List Char → Bool
  | needle, [] => needle.isEmpty
  | needle, c :: rest => chStarts needle (c :: rest) || chSub needle rest

/-- Python's substring test `needle in hay` on strings. -/
def strContains (needle hay : String) : Bool :=
  chSub needle.data hay.data

/-- Python `str.split()` (split on whitespace runs, dropping empty parts):
worker that accumulates the current word reversed. -/
def wordsGo (cur : List Char) : List Char → List (List Char)
  | [] => if cur = [] then [] else [cur.reverse]
  | c :: rest =>
    if isPySpace c then
      if cur = [] then wordsGo [] rest else cur.reverse :: wordsGo [] rest
    else wordsGo (c :: cur) rest

/-- Python `str.split()` over a character list. -/
def pyWords (cs : List Char) : List (List Char) :=
  wordsGo [] cs

/-- Python `str.split(',')` (keeps empty parts) over a character list. -/
def splitComma : List Char → List (List Char)
  | [] => [[]]
  | c :: rest =>
    match splitComma rest with
    | [] => [[c]]
    | g :: gs => if c = ',' then [] :: g :: gs else (c :: g) :: gs

/-- Value of a digit string, with accumulator (`int`-style base-10 read). -/
def digitsValGo (acc : ℕ) : List Char → Option ℕ
  | [] => some acc
  | c :: rest =>
    if c.isDigit then digitsValGo (acc * 10 + (c.toNat - '0'.toNat)) rest
    else none

/-- Value of a digit string; `some 0` on the empty string. -/
def digitsVal (cs : List Char) : Option ℕ :=
  digitsValGo 0 cs

/-- Parsing stage of Python `float(s)` for the unsigned decimal strings this
program feeds it (digits and at most one dot, surrounding whitespace
ignored): the scaled mantissa and the number of fractional digits, so that
the parsed value is `mantissa / 10 ^ digits`.  `none` models the
`ValueError` that the source catches with `try/except`. -/
def pyFloatParse (cs0 : List Char) : Option (ℕ × ℕ) :=
  let cs := listTrim cs0
  let ip := cs.takeWhile (fun c => c ≠ '.')
  let rest := cs.dropWhile (fun c => c ≠ '.')
  match rest with
  | [] => if ip = [] then none else (digitsVal ip).map (fun a => (a, 0))
  | _ :: fp =>
    if fp.contains '.' then none
    else if ip = [] && fp = [] then none
    else
      match digitsVal ip, digitsVal fp with
      | some a, some b => some (a * 10 ^ fp.length + b, fp.length)
      | _, _ => none

/-- Value of a parsed decimal: `mantissa / 10 ^ digits`. -/
def decVal (p : ℕ × ℕ) : ℚ :=
  (p.1 : ℚ) / 10 ^ p.2

/-- Python `float(s)` as a rational (`none` on `ValueError`). -/
def pyFloatChars (cs0 : List Char) : Option ℚ :=
  (pyFloatParse cs0).map decVal

/-- `str.replace('.', '', k)`: remove the first `k` dots. -/
def removeDots : ℕ → List Char → List Char
  | _, [] => []
  | 0, cs => cs
  | k + 1, c :: rest =>
    if c = '.' then removeDots k rest else c :: removeDots (k + 1) rest

/-- The repeated-dot cleanup of `vision.py` (`read_inventory_tooltip` and
`_parse_distance`): if a string holds more than one dot, drop all but the
last one (`s.replace('.', '', s.count('.') - 1)`). -/
def fixDots (cs : List Char) : List Char :=
  let n := cs.count '.'
  if n > 1 then removeDots (n - 1) cs else cs

/-- Character class `[\d,.\s]` of the tooltip regex. -/
def tooltipClass (c : Char) : Bool :=
  c.isDigit || c = ',' || c = '.' || isPySpace c

/-- Leftmost match of `([\d,.\s]+)\s*/\s*([\d,.\s]+)` in
`read_inventory_tooltip`: the first `/` with a non-empty run of class
characters immediately before and after it; the groups are those maximal
runs (the greedy groups absorb the optional surrounding whitespace).
`pre` accumulates the current class-character run, reversed. -/
def findSlash (pre : List Char) : List Char → Option (List Char × List Char)
  | [] => none
  | c :: rest =>
    if c = '/' then
      let g2 := rest.takeWhile tooltipClass
      if pre ≠ [] && g2 ≠ [] then some (pre.reverse, g2)
      else findSlash [] rest
    else if tooltipClass c then findSlash (c :: pre) rest
    else findSlash [] rest

/-- Character class `[\d,.]` of the `_parse_distance` regex. -/
def distClass (c : Char) : Bool :=
  c.isDigit || c = ',' || c = '.'

/-- Leftmost match of `([\d,.]+)\s*(km|m)` in `_parse_distance`, over the
lowercased text: a maximal run of `[\d,.]` characters, optional whitespace,
then `km` (preferred by the alternation) or `m`.  Returns the number run and
the matched unit. -/
def distMatch : List Char → Option (List Char × String)
  | [] => none
  | c :: rest =>
    if distClass c then
      let run := c :: rest.takeWhile distClass
      let after := (rest.dropWhile distClass).dropWhile isPySpace
      if chStarts ['k', 'm'] after then some (run, "km")
      else if chStarts ['m'] after then some (run, "m")
      else distMatch rest
    else distMatch rest

/-- `VisionSystem._parse_distance` (vision.py, lines 843-877): distance in km
parsed from one overview line.  Total: the source wraps the body in
`try/except` and returns sentinels on any failure. -/
def parseDistance (text : String) : ℚ :=
  let tl := lowerCh text.data
  if chSub ['a', 'u'] tl then 999999
  else
    match distMatch tl with
    | none => 9999
    | some (run, unit) =>
      let numStr := fixDots (run.filter (fun c => c ≠ ','))
      match pyFloatChars numStr with
      | none => 9999
      | some v => if unit = "m" then v / 1000 else v

/-! ## `read_inventory_tooltip` (vision.py, lines 259-442) -/

/-- One entry of `valid_results`. -/
structure CargoResult where
  current : ℚ
  max : ℚ
  percent : ℚ
  method : String
deriving DecidableEq

/-- The missing-decimal repair condition of `read_inventory_tooltip`
(vision.py, lines 330-337), applied to the raw `match.group(2)` text:
a comma and no dot in the raw max, and the last comma-separated group of the
stripped raw max has exactly four characters after stripping. -/
def repairCond (rawMax : List Char) : Bool :=
  rawMax.contains ',' && !rawMax.contains '.' &&
    (let parts := splitComma (listTrim rawMax)
     parts.length > 1 && (listTrim (parts.getLastD [])).length = 4)

/-- The thousands-separator repair of `read_inventory_tooltip` (vision.py,
lines 339-356): when current/max is out of band (> 2), try reinterpreting
the max's dots as thousands separators (removing them, optionally also
dividing by 10) and accept whichever reinterpretation brings the ratio into
(0.5, 1.5). -/
def repair2 (currentVal maxVal1 : ℚ) (maxStr : List Char) : ℚ :=
  if maxVal1 > 0 ∧ currentVal / maxVal1 > 2 then
    match pyFloatChars (maxStr.filter (fun c => c ≠ '.')) with
    | some alt1 =>
      if 1 / 2 < currentVal / alt1 ∧ currentVal / alt1 < 3 / 2 then alt1
      else
        if 1 / 2 < currentVal / (alt1 / 10) ∧ currentVal / (alt1 / 10) < 3 / 2 then
          alt1 / 10
        else maxVal1
    | none => maxVal1
  else maxVal1

/-- The per-method candidate extraction of `read_inventory_tooltip`
(vision.py, lines 299-375): regex match, cleanup, the two numeric repairs,
the `max > 0` guard and the `percent > 105` anomaly filter.  `none` models
both a failed regex match, a swallowed `ValueError` from `float`, and a
discarded candidate. -/
def tooltipCandidate (methodName : String) (text : String) : Option CargoResult :=
  match findSlash [] text.data with
  | none => none
  | some (g1, g2) =>
    let currentStr := fixDots (g1.filter (fun c => !(c = ',' || c = ' ')))
    let maxStr := fixDots (g2.filter (fun c => !(c = ',' || c = ' ')))
    match pyFloatChars currentStr, pyFloatChars maxStr with
    | some currentVal, some maxVal0 =>
      let maxVal1 := if repairCond g2 then maxVal0 / 10 else maxVal0
      let maxVal2 := repair2 currentVal maxVal1 maxStr
      if maxVal2 > 0 then
        let percent := currentVal / maxVal2 * 100
        if percent > 105 then none
        else some ⟨currentVal, maxVal2, percent, methodName⟩
      else none
    | _, _ => none

/-- Python `int(f)` on a non-negative-or-negative float: truncation toward
zero, on rationals. -/
def pyInt (q : ℚ) : ℤ :=
  if 0 ≤ q then ((q.num.toNat / q.den : ℕ) : ℤ)
  else -(((-q).num.toNat / (-q).den : ℕ) : ℤ)

/-- First occurrences, in order, of the values of a list (the insertion order
of `collections.Counter`). `seen` accumulates values already emitted. -/
def firstOccs (seen : List ℤ) : List ℤ → List ℤ
  | [] => []
  | v :: rest =>
    if seen.contains v then firstOccs seen rest
    else v :: firstOccs (v :: seen) rest

/-- The `best_result` selection of `read_inventory_tooltip` (vision.py,
lines 419-439): for the winning max, prefer the Dilated result, then the
Fixed one, then any.  The fallback `⟨0, 0, 0, ""⟩` models the unreachable
`best_result = None` case (the winner always occurs in `valid_results`). -/
def vrPick (vr : List CargoResult) (winner : ℤ) : CargoResult :=
  match vr.find? (fun r => decide (pyInt r.max = winner) && decide (r.method = "Dilated")) with
  | some r => r
  | none =>
    match vr.find? (fun r => decide (pyInt r.max = winner) && decide (r.method = "Fixed")) with
    | some r => r
    | none => (vr.find? (fun r => decide (pyInt r.max = winner))).getD ⟨0, 0, 0, ""⟩

/-- The winning max value of the voting logic of `read_inventory_tooltip`
(vision.py, lines 386-415): group max values by `int`, take the most
frequent (`Counter.most_common`, ties kept in first-occurrence order), and
break a tie by Dilated then Fixed support. -/
def tooltipWinner (vr : List CargoResult) : ℤ :=
  let maxVals := vr.map (fun r => pyInt r.max)
  let firsts := firstOccs [] maxVals
  let topCount := (firsts.map (fun v => maxVals.count v)).foldr max 0
  let candidates := firsts.filter (fun v => maxVals.count v = topCount)
  let winner0 := candidates.headD 0
  if candidates.length > 1 then
    match vr.find? (fun r => decide (r.method = "Dilated") && candidates.contains (pyInt r.max)) with
    | some r => pyInt r.max
    | none =>
      match vr.find? (fun r => decide (r.method = "Fixed") && candidates.contains (pyInt r.max)) with
      | some r => pyInt r.max
      | none => winner0
  else winner0

/-- The voting logic of `read_inventory_tooltip` (vision.py, lines 377-442)
over the surviving `valid_results`. -/
def tooltipVote (vr : List CargoResult) : ℚ × ℚ × ℚ :=
  match vr with
  | [] => (0, 0, 0)
  | [r] => (r.current, r.max, r.percent)
  | _ :: _ :: _ =>
    let best := vrPick vr (tooltipWinner vr)
    (best.current, best.max, best.percent)

/-- `VisionSystem.read_inventory_tooltip`: the environment supplies, per
preprocessing method in order (HSV, Gray, Fixed, Dilated), the method name
and the raw OCR text; the result is the `(current, max, percent)` tuple. -/
def readInventoryTooltip (texts : List (String × String)) : ℚ × ℚ × ℚ :=
  tooltipVote (texts.filterMap (fun p => tooltipCandidate p.1 p.2))

/-- The invariant claimed for every surfaced cargo reading: either the
failure sentinel `(0, 0, 0)`, or a positive max with
`percent = current / max * 100` and `percent ≤ 105`. -/
def cargoInv (t : ℚ × ℚ × ℚ) : Prop :=
  t = (0, 0, 0) ∨ (0 < t.2.1 ∧ t.2.2 = t.1 / t.2.1 * 100 ∧ t.2.2 ≤ 105)

/-! ## Overview entries and `scan_overview` row reconciliation
(vision.py, lines 590-639) -/

/-- One pooled line detection (the dictionaries built in `scan_overview`,
vision.py, lines 579-588). -/
structure Entry where
  text : String
  name : Option String
  y : Int
  x : Int
  is_asteroid : Bool
  is_player : Bool
  distance : ℚ
deriving DecidableEq

/-- Order on entries used by `all_results.sort(key=lambda r: r['y'])`. -/
def yLE (a b : Entry) : Prop :=
  a.y ≤ b.y

instance : DecidableRel yLE := fun a b => inferInstanceAs (Decidable (a.y ≤ b.y))

instance : IsTotal Entry yLE := ⟨fun a b => le_total a.y b.y⟩

instance : IsTrans Entry yLE := ⟨fun _ _ _ h1 h2 => le_trans h1 h2⟩

/-- Strict version of `yLE`, used to show sorted pooled lists with distinct
y-coordinates are unique. -/
def yLT (a b : Entry) : Prop :=
  a.y < b.y

instance : IsAntisymm Entry yLT := ⟨fun _ _ h1 h2 => absurd (lt_trans h1 h2) (lt_irrefl _)⟩

/-- The stable sort of the pooled results (`list.sort` is stable;
`List.insertionSort` with `yLE` is the same stable sort). -/
def sortEntries (l : List Entry) : List Entry :=
  List.insertionSort yLE l

/-- Python `max(group, key=lambda r: len(r['text']))` keeps the first
maximum: replace only on strictly longer text. -/
def entryMaxGo (best : Entry) : List Entry → Entry
  | [] => best
  | e :: rest =>
    entryMaxGo (if e.text.data.length > best.text.data.length then e else best) rest

/-- Python `max(l, key=len)` on a list of entries (`none` on the empty list,
where the source would raise; all groups are non-empty). -/
def entryMax : List Entry → Option Entry
  | [] => none
  | e :: rest => some (entryMaxGo e rest)

/-- Truthiness of `r['name'] and r['name'] != "Asteroid"`: a present,
non-empty name different from the generic `"Asteroid"` label. -/
def hasOreName (r : Entry) : Bool :=
  match r.name with
  | some s => !(s = "") && !(s = "Asteroid")
  | none => false

/-- `VisionSystem._pick_best_result` (vision.py, lines 622-639). -/
def pickBestResult (group : List Entry) : Option Entry :=
  match entryMax (group.filter hasOreName) with
  | some r => some r
  | none =>
    match entryMax (group.filter (fun r => r.is_asteroid)) with
    | some r => some r
    | none => entryMax group

/-- The row grouping of `scan_overview` (vision.py, lines 600-618): walk the
y-sorted pooled list, starting a new group whenever an entry is 10 or more
pixels below the previous one.  `curRev` is the current group reversed,
`prev` its last element. -/
def groupGo (curRev : List Entry) (prev : Entry) : List Entry → List (List Entry)
  | [] => [curRev.reverse]
  | e :: rest =>
    if (e.y - prev.y).natAbs < 10 then groupGo (e :: curRev) e rest
    else curRev.reverse :: groupGo [e] e rest

/-- Row reconciliation on an already-sorted pooled list. -/
def reconcileSorted : List Entry → List Entry
  | [] => []
  | e :: rest => (groupGo [e] e rest).filterMap pickBestResult

/-- The deduplication stage of `scan_overview` (vision.py, lines 590-620):
sort the pooled per-variant detections by y, group rows within 10 pixels,
and keep one representative per row via `_pick_best_result`. -/
def scanReconcile (pooled : List Entry) : List Entry :=
  reconcileSorted (sortEntries pooled)

/-! ## `find_text_in_region` (vision.py, lines 642-841) -/

/-- One OCR word box of a `pytesseract.image_to_data` call (`data['text']`,
`data['left']`, `data['top']`, `data['width']`, `data['height']`). -/
structure Token where
  text : String
  left : Int
  top : Int
  width : Int
  height : Int
deriving DecidableEq

/-- `int(a / 4)` on integer pixel coordinates: truncation toward zero. -/
def pyTrunc4 (a : Int) : Int :=
  if 0 ≤ a then ((a.toNat / 4 : ℕ) : ℤ) else -((((-a).toNat / 4 : ℕ)) : ℤ)

/-- Center of a matched box in absolute screen coordinates (vision.py,
lines 810-816 and 827-833): remove the 20px padding, divide by the 4x scale,
add the region origin and half the box size (`w // 2` floors). -/
def tokenCenter (region : Int × Int × Int × Int) (tok : Token) : Int × Int :=
  let x := pyTrunc4 (tok.left - 20)
  let y := pyTrunc4 (tok.top - 20)
  let w := pyTrunc4 tok.width
  let h := pyTrunc4 tok.height
  (region.1 + x + Int.fdiv w 2, region.2.1 + y + Int.fdiv h 2)

/-- The running best fuzzy candidate (`best_fuzzy_ratio`,
`best_fuzzy_match`). -/
structure Fuzzy where
  ratio : ℚ
  tok : Option Token
deriving DecidableEq

/-- `if ratio > best_fuzzy_ratio: update` (vision.py, lines 757-778). -/
def fuzzyUpdate (best : Fuzzy) (r : ℚ) (tok : Token) : Fuzzy :=
  if r > best.ratio then ⟨r, some tok⟩ else best

/-- The hard-coded alias list for the `undock` target (vision.py, line 754). -/
def undockAliases : List (List Char) :=
  [['e', 'n', 'd', 'o'], ['u', 'n', 'd', 'o', 'c'], ['n', 'd', 'o', 'c', 'k'],
   ['d', 'o', 'c', 'e'], ['e', 'u', 'n', 'o', 's'], ['[', 'c', 'k']]

/-- The single-word fuzzy branch of `find_text_in_region` (vision.py,
lines 751-778), reached only when `exact_match` is false and the substring
check failed: alias boost for `undock`, then the similarity-threshold check.
`tgt` is the lowercased target, `txt` the stripped lowercased token text,
`ratio` the `difflib.SequenceMatcher(...).ratio()` oracle. -/
def singleWordFuzzy (ratio : List Char → List Char → ℚ) (tgt txt : List Char)
    (tok : Token) (best : Fuzzy) : Fuzzy :=
  if txt.length > 2 then
    let best :=
      if tgt = "undock".data ∧ undockAliases.any (fun a => chSub a txt) then
        fuzzyUpdate best (95 / 100) tok
      else best
    let r := ratio tgt txt
    let threshold : ℚ := if tgt.length ≤ 6 then 6 / 10 else 8 / 10
    let threshold := if tgt = "guests".data ∧ r < 8 / 10 then (8 : ℚ) / 10 else threshold
    let threshold := if tgt = "within".data then (85 : ℚ) / 100 else threshold
    if r ≥ threshold then fuzzyUpdate best r tok else best
  else best

/-- The multi-word phrase walk of `find_text_in_region` (vision.py,
lines 787-801): each remaining target word must be a substring of the next
non-empty detected token, consumed left to right. -/
def phraseMatch : List (List Char) → List Token → Bool
  | [], _ => true
  | w :: ws, following =>
    match following.dropWhile (fun t => listTrim t.text.data = []) with
    | [] => false
    | t :: rest => chSub w (lowerCh (listTrim t.text.data)) && phraseMatch ws rest

/-- The token scan of one OCR pass of `find_text_in_region` (vision.py,
lines 728-819): returns the first exactly-matched token if any, and the
fuzzy state threaded through the scan.  `tgt` is the lowercased target,
`tgtWords` its whitespace split.  In the empty-target case (`tgtWords = []`)
the source raises `IndexError` on the first non-empty token; no caller passes
an empty target, and the scan is modelled as finding nothing. -/
def findLoop (ratio : List Char → List Char → ℚ) (tgt : List Char)
    (tgtWords : List (List Char)) (exactMatch : Bool) :
    List Token → Fuzzy → Option Token × Fuzzy
  | [], best => (none, best)
  | tok :: rest, best =>
    let txt := lowerCh (listTrim tok.text.data)
    if txt = [] then findLoop ratio tgt tgtWords exactMatch rest best
    else
      match tgtWords with
      | [_] =>
        if exactMatch then
          if txt = tgt then (some tok, best)
          else findLoop ratio tgt tgtWords exactMatch rest best
        else
          if chSub tgt txt then (some tok, best)
          else
            findLoop ratio tgt tgtWords exactMatch rest
              (singleWordFuzzy ratio tgt txt tok best)
      | w0 :: w1 :: ws =>
        if chSub w0 txt && phraseMatch (w1 :: ws) rest then (some tok, best)
        else findLoop ratio tgt tgtWords exactMatch rest best
      | [] => (none, best)

/-- The pass iteration of `find_text_in_region`: each element of `passes` is
the token list of one preprocessing-method / psm-mode OCR call, tried in
order; an exact match returns immediately, otherwise the best fuzzy
candidate is threaded on and resolved at the end (vision.py,
lines 706-838). -/
def findTextGo (ratio : List Char → List Char → ℚ) (tgt : List Char)
    (tgtWords : List (List Char)) (exactMatch : Bool)
    (region : Int × Int × Int × Int) :
    List (List Token) → Fuzzy → Option (Int × Int)
  | [], best =>
    match best.tok with
    | some tok => some (tokenCenter region tok)
    | none => none
  | p :: ps, best =>
    match findLoop ratio tgt tgtWords exactMatch p best with
    | (some tok, _) => some (tokenCenter region tok)
    | (none, best2) => findTextGo ratio tgt tgtWords exactMatch region ps best2

/-- `VisionSystem.find_text_in_region` (vision.py, lines 642-841), given the
environment's OCR outputs per pass. -/
def findTextInRegion (ratio : List Char → List Char → ℚ)
    (passes : List (List Token)) (region : Int × Int × Int × Int)
    (targetText : String) (exactMatch : Bool) : Option (Int × Int) :=
  let tgt := lowerCh targetText.data
  findTextGo ratio tgt (pyWords tgt) exactMatch region passes ⟨0, none⟩

/-! ## Controller (`bot_logic.py`) -/

/-- `BotState` (bot_logic.py, lines 7-17). -/
inductive BotState where
  | IDLE
  | CHECK_CARGO
  | SCANNING
  | APPROACHING
  | LOCKING
  | MINING
  | DOCKING
  | UNLOADING
  | UNDOCKING
  | TRAVELING
deriving DecidableEq

/-- The controller fields of `MiningBot` touched by the embedded handlers
(bot_logic.py, lines 25-37). -/
structure CtrlState where
  state : BotState
  running : Bool
  knownMaxCargo : Option ℚ
  scanFailCount : ℕ
  currentTarget : Option Entry
  approachSent : Bool
deriving DecidableEq

/-- `MiningBot.stop` (bot_logic.py, lines 96-99). -/
def stopBot (s : CtrlState) : CtrlState :=
  { s with running := false, state := BotState.IDLE }

/-- `MiningBot._handle_scanning` (bot_logic.py, lines 130-163), given the
fresh `scan_overview` results. -/
def handleScanning (results : List Entry) (s : CtrlState) : CtrlState :=
  let asteroids := results.filter (fun r => r.is_asteroid)
  if asteroids ≠ [] then
    { s with state := BotState.APPROACHING, currentTarget := asteroids.head?,
             approachSent := false, scanFailCount := 0 }
  else
    if s.scanFailCount + 1 ≥ 2 then
      { s with state := BotState.TRAVELING, scanFailCount := 0 }
    else { s with scanFailCount := s.scanFailCount + 1 }

/-- Outcome of the LOCKING handler: the post state, the number of lock
commands sent (`self.input.lock_target` calls) and the number of
selected-item-window toggles sent. -/
structure LockOutcome where
  state : BotState
  locks : ℕ
  toggles : ℕ
deriving DecidableEq

/-- The `for attempt in range(3)` loop of `MiningBot._handle_locking`
(bot_logic.py, lines 209-249), iterating over the remaining attempt
indices: `scans i` is the overview scan of attempt `i`, `verify1 i` the
`has_selected_target` check after the lock command of attempt `i`,
`verify2 i` the re-check after the window toggle.  The `for`-`else` clause
(all attempts exhausted) yields SCANNING; an empty scan aborts to SCANNING
at once; a confirmed verification breaks to MINING.  `locks` and `toggles`
count the lock commands and window toggles sent so far. -/
def lockLoop (scans : ℕ → List Entry) (verify1 verify2 : ℕ → Bool) :
    List ℕ → ℕ → ℕ → LockOutcome
  | [], locks, toggles => ⟨BotState.SCANNING, locks, toggles⟩
  | attempt :: rest, locks, toggles =>
    if (scans attempt).filter (fun r => r.is_asteroid) = [] then
      ⟨BotState.SCANNING, locks, toggles⟩
    else
      if verify1 attempt then ⟨BotState.MINING, locks + 1, toggles⟩
      else
        if verify2 attempt then ⟨BotState.MINING, locks + 1, toggles + 1⟩
        else lockLoop scans verify1 verify2 rest (locks + 1) (toggles + 1)

/-- `MiningBot._handle_locking` (bot_logic.py, lines 206-261): up to
`max_retries = 3` attempts, over `range(3) = [0, 1, 2]`. -/
def handleLocking (scans : ℕ → List Entry) (verify1 verify2 : ℕ → Bool) : LockOutcome :=
  lockLoop scans verify1 verify2 [0, 1, 2] 0 0

/-- The `known_max_cargo` validation of `MiningBot._check_cargo`
(bot_logic.py, lines 312-325): once a baseline exists, a max reading more
than twice or less than half of it is replaced by the baseline. -/
def validateMax (known : Option ℚ) (maxVal : ℚ) : ℚ :=
  match known with
  | none => maxVal
  | some k => if maxVal / k > 2 ∨ maxVal / k < 1 / 2 then k else maxVal

/-- The `known_max_cargo` update of the same block: set on the first
successful reading, kept unchanged forever after. -/
def updateKnown (known : Option ℚ) (maxVal : ℚ) : Option ℚ :=
  match known with
  | none => some maxVal
  | some k => some k

/-- `MiningBot._check_cargo` (bot_logic.py, lines 297-348): `configured`
models the hover-point/tooltip-region guard of line 299; `(curr, maxRead,
pctRead)` is the tooltip reading.  The percent acted on is recomputed from
the validated values; the tooltip's own `pctRead` is discarded, exactly as
line 337 overwrites `pct`. -/
def checkCargo (configured : Bool) (curr maxRead pctRead : ℚ) (s : CtrlState) : CtrlState :=
  if !configured then s
  else
    if maxRead > 0 then
      let known := updateKnown s.knownMaxCargo maxRead
      let maxVal := validateMax s.knownMaxCargo maxRead
      if curr > maxVal * (102 / 100) then { s with knownMaxCargo := known }
      else
        let pct := curr / maxVal * 100
        if pct ≥ 99 then { s with knownMaxCargo := known, state := BotState.DOCKING }
        else { s with knownMaxCargo := known }
    else s

/-- The belt iteration of `MiningBot._handle_traveling` (bot_logic.py,
lines 651-693): `warpOpt i` tells whether belt number `i` offered a warp
option in its context menu; the loop clicks the first belt that does. -/
def warpSearch (warpOpt : ℕ → Bool) : ℕ → ℕ → Bool
  | _, 0 => false
  | i, n + 1 => warpOpt i || warpSearch warpOpt (i + 1) n

/-- The unbounded `while True` warp-status wait of `_handle_traveling`
(bot_logic.py, lines 729-738), with explicit fuel: `warpGone t` tells
whether the warp text had disappeared at poll `t`; `none` means the loop was
still running after `fuel` polls. -/
def waitWarpGone (warpGone : ℕ → Bool) : ℕ → ℕ → Option Unit
  | _, 0 => none
  | t, fuel + 1 => if warpGone t then some () else waitWarpGone warpGone (t + 1) fuel

/-- `MiningBot._handle_traveling` (bot_logic.py, lines 630-745), given the
fresh overview scan and the environment oracles.  The second component of
the result is the sequence of assignments to `self.state` performed by the
handler; `none` means the warp-status wait never finished within `fuel`.
The bounded wait for the warp text to *appear* (lines 711-725) only reads
the screen and logs, touching no controller state, and is not modelled. -/
def handleTraveling (results : List Entry) (warpOpt : ℕ → Bool)
    (warpGone : ℕ → Bool) (fuel : ℕ) (s : CtrlState) :
    Option (CtrlState × List BotState) :=
  let belts := results.filter (fun e => strContains "asteroid belt" (String.mk (lowerCh e.text.data)))
  if belts = [] then some (stopBot s, [BotState.IDLE])
  else
    if warpSearch warpOpt 0 belts.length then
      match waitWarpGone warpGone 0 fuel with
      | none => none
      | some _ =>
        let s1 := { s with state := BotState.CHECK_CARGO }
        let s2 := { s1 with state := BotState.SCANNING }
        some (s2, [BotState.CHECK_CARGO, BotState.SCANNING])
    else some (stopBot s, [BotState.IDLE])

/-! ## The spec's reading of the missing-decimal repair, and concrete
fixtures used by the claim theorems -/

/-- The missing-decimal repair condition as the specification words it:
a comma, no decimal point, and a last comma-separated group that is
*exactly four digits*.  Compare with `repairCond`, the code's guard, which
only checks the *length* of the stripped last group. -/
def specRepairCond (rawMax : List Char) : Bool :=
  rawMax.contains ',' && !rawMax.contains '.' &&
    (let parts := splitComma (listTrim rawMax)
     parts.length > 1 &&
       (let g := listTrim (parts.getLastD [])
        g.length = 4 && g.all Char.isDigit))

/-- Pooled detection fixture: a named-ore row. -/
def rowVeld : Entry :=
  ⟨"veldspar 12 km", some "Veldspar", 50, 200, true, false, 12⟩

/-- Pooled detection fixture: a second named-ore row at the same y with a
text of the same length. -/
def rowScord : Entry :=
  ⟨"scordite 17 km", some "Scordite", 50, 200, true, false, 17⟩

/-- Pooled detection fixture with a distinct y coordinate. -/
def rowFar : Entry :=
  ⟨"Asteroid 30 km", some "Asteroid", 80, 200, true, false, 30⟩

/-- A generic asteroid entry used as scan output in controller fixtures. -/
def astEntry : Entry :=
  ⟨"Asteroid 5 km", some "Asteroid", 50, 200, true, false, 5⟩

/-- An overview row naming an asteroid belt, for the TRAVELING fixture. -/
def beltEntry : Entry :=
  ⟨"Asteroid Belt 1", none, 50, 200, false, false, 0⟩

/-- A controller state in SCANNING with all counters clear. -/
def ctrlScan : CtrlState :=
  ⟨BotState.SCANNING, true, none, 0, none, false⟩

/-- A controller state with one recorded empty scan. -/
def ctrlScanFail1 : CtrlState :=
  { ctrlScan with scanFailCount := 1 }

/-- A controller state with an established `known_max_cargo` baseline. -/
def ctrlKnown100 : CtrlState :=
  { ctrlScan with knownMaxCargo := some 100 }

/-- OCR word-box fixture: a token that only contains the first target word
as a proper substring. -/
def tokWarping : Token :=
  ⟨"Warping", 100, 100, 40, 10⟩

/-- OCR word-box fixture: a token that only contains the second target word
as a proper substring. -/
def tokTomorrow : Token :=
  ⟨"tomorrow", 160, 100, 40, 10⟩

/-- OCR word-box fixture: an exact `Undock` token with surrounding spaces. -/
def tokUndock : Token :=
  ⟨" Undock ", 100, 100, 40, 10⟩

/-! ## Theorems -/

/-- C10: `_parse_distance` is total (it returns a rational for every input
and never raises): it returns the 999999.0 sentinel whenever the lowercased
text contains `au` (checked before any number parsing), the parsed value
divided by 1000 when the matched unit is `m`, the parsed value unchanged
when the unit is `km`, and the 9999.0 sentinel when no number-with-unit
pattern matches or the number fails to parse; and the unknown-distance
sentinel 9999.0 is never below the 15 km approach threshold. -/
theorem c10_parse_distance (text : String) :
    (chSub ['a', 'u'] (lowerCh text.data) = true → parseDistance text = 999999) ∧
    (chSub ['a', 'u'] (lowerCh text.data) = false →
      (distMatch (lowerCh text.data) = none → parseDistance text = 9999) ∧
      (∀ run v, distMatch (lowerCh text.data) = some (run, "m") →
        pyFloatChars (fixDots (run.filter (fun c => c ≠ ','))) = some v →
        parseDistance text = v / 1000) ∧
      (∀ run v, distMatch (lowerCh text.data) = some (run, "km") →
        pyFloatChars (fixDots (run.filter (fun c => c ≠ ','))) = some v →
        parseDistance text = v) ∧
      (∀ run u, distMatch (lowerCh text.data) = some (run, u) →
        pyFloatChars (fixDots (run.filter (fun c => c ≠ ','))) = none →
        parseDistance text = 9999)) ∧
    (parseDistance text = 9999 → ¬ parseDistance text < 15) := by
  refine ⟨fun h => ?_,
    fun h => ⟨fun hm => ?_, fun run v hm hv => ?_, fun run v hm hv => ?_,
      fun run u hm hv => ?_⟩,
    fun h => ?_⟩
  · simp [parseDistance, h]
  · simp [parseDistance, h, hm]
  · simp only [ne_eq, decide_not] at hv
    simp [parseDistance, h, hm, hv]
  · simp only [ne_eq, decide_not] at hv
    simp [parseDistance, h, hm, hv]
  · simp only [ne_eq, decide_not] at hv
    simp [parseDistance, h, hm, hv]
  · rw [h]; norm_num

/-- C10 witness: a concrete `au` line takes the far-distance branch. -/
theorem c10_witness :
    chSub ['a', 'u'] (lowerCh "Belt 3 AU".data) = true ∧
      parseDistance "Belt 3 AU" = 999999 :=
  ⟨by decide, (c10_parse_distance "Belt 3 AU").1 (by decide)⟩

/-- C5: in the SCANNING state, an empty scan from a clear counter keeps the
controller in SCANNING with `scan_fail_count = 1`; a second consecutive
empty scan moves it to TRAVELING and clears the counter; any scan that
finds an asteroid clears the counter and moves it to APPROACHING. -/
theorem c5_scanning_transitions (results : List Entry) (s : CtrlState)
    (hstate : s.state = BotState.SCANNING) :
    (results.filter (fun r => r.is_asteroid) = [] → s.scanFailCount = 0 →
      (handleScanning results s).state = BotState.SCANNING ∧
      (handleScanning results s).scanFailCount = 1) ∧
    (results.filter (fun r => r.is_asteroid) = [] → s.scanFailCount = 1 →
      (handleScanning results s).state = BotState.TRAVELING ∧
      (handleScanning results s).scanFailCount = 0) ∧
    (results.filter (fun r => r.is_asteroid) ≠ [] →
      (handleScanning results s).state = BotState.APPROACHING ∧
      (handleScanning results s).scanFailCount = 0) := by
  refine ⟨fun he h0 => ?_, fun he h1 => ?_, fun hne => ?_⟩
  · simp [handleScanning, he, h0, hstate]
  · simp [handleScanning, he, h1]
  · simp [handleScanning, hne]

/-- C5 witness: the three scenarios at concrete inputs. -/
theorem c5_witness :
    (ctrlScan.state = BotState.SCANNING ∧ ctrlScan.scanFailCount = 0 ∧
      (handleScanning [] ctrlScan).state = BotState.SCANNING ∧
      (handleScanning [] ctrlScan).scanFailCount = 1) ∧
    (ctrlScanFail1.scanFailCount = 1 ∧
      (handleScanning [] ctrlScanFail1).state = BotState.TRAVELING ∧
      (handleScanning [] ctrlScanFail1).scanFailCount = 0) ∧
    ((handleScanning [astEntry] ctrlScan).state = BotState.APPROACHING ∧
      (handleScanning [astEntry] ctrlScan).scanFailCount = 0) := by
  refine ⟨⟨rfl, rfl, (c5_scanning_transitions [] ctrlScan rfl).1 (by decide) rfl⟩,
    ⟨rfl, (c5_scanning_transitions [] ctrlScanFail1 rfl).2.1 (by decide) rfl⟩,
    (c5_scanning_transitions [astEntry] ctrlScan rfl).2.2 (by decide)⟩

/-- C7: in `_check_cargo`, once the reading is validated (positive max,
current not anomalous), a recomputed percent of at least 99.0 moves the
controller to DOCKING and a recomputed percent strictly below 99.0 leaves
the state unchanged: the threshold is inclusive at exactly 99.0. -/
theorem c7_cargo_full_threshold (s : CtrlState) (curr maxRead pctRead : ℚ)
    (hmax : 0 < maxRead)
    (hcur : ¬ curr > validateMax s.knownMaxCargo maxRead * (102 / 100)) :
    (curr / validateMax s.knownMaxCargo maxRead * 100 ≥ 99 →
      (checkCargo true curr maxRead pctRead s).state = BotState.DOCKING) ∧
    (curr / validateMax s.knownMaxCargo maxRead * 100 < 99 →
      (checkCargo true curr maxRead pctRead s).state = s.state) := by
  constructor
  · intro hp
    simp [checkCargo, hmax, hcur, hp]
  · intro hp
    simp [checkCargo, hmax, hcur, not_le.mpr hp]

/-- C7 witness: a reading of exactly 99.0% docks, a reading of 98.9% does
not change the state. -/
theorem c7_witness :
    (0 < (100 : ℚ) ∧ (99 : ℚ) / 100 * 100 ≥ 99 ∧
      (checkCargo true 99 100 0 ctrlScan).state = BotState.DOCKING) ∧
    ((989 : ℚ) / 10 / 100 * 100 < 99 ∧
      (checkCargo true (989 / 10) 100 0 ctrlScan).state = ctrlScan.state) := by
  constructor
  · refine ⟨by norm_num, by norm_num, ?_⟩
    exact (c7_cargo_full_threshold ctrlScan 99 100 0 (by norm_num)
      (by norm_num [validateMax, ctrlScan])).1 (by norm_num [validateMax, ctrlScan])
  · refine ⟨by norm_num, ?_⟩
    exact (c7_cargo_full_threshold ctrlScan (989 / 10) 100 0 (by norm_num)
      (by norm_num [validateMax, ctrlScan])).2 (by norm_num [validateMax, ctrlScan])

/-- C3: once `known_max_cargo` holds a baseline `k > 0`, a successful
reading whose max is more than twice or less than half of `k` has the
baseline substituted for its max, and no later reading ever changes
`known_max_cargo` again. -/
theorem c3_known_max_defended (s : CtrlState) (k curr maxRead pctRead : ℚ)
    (configured : Bool) (hk : s.knownMaxCargo = some k) (hkpos : 0 < k)
    (hmax : 0 < maxRead) :
    ((2 * k < maxRead ∨ maxRead < k / 2) →
      validateMax s.knownMaxCargo maxRead = k) ∧
    (checkCargo configured curr maxRead pctRead s).knownMaxCargo = some k := by
  constructor
  · rintro (hc | hc) <;> rw [hk] <;> simp only [validateMax]
    · rw [if_pos (Or.inl ((lt_div_iff₀ hkpos).mpr (by linarith)))]
    · rw [if_pos (Or.inr ((div_lt_iff₀ hkpos).mpr (by linarith)))]
  · unfold checkCargo
    cases configured
    · simpa using hk
    · simp only [Bool.not_true, Bool.false_eq_true, if_false, if_pos hmax]
      split_ifs <;> simp [updateKnown, hk]

/-- C3 witness: with a baseline of 100, a reading of 250 (more than twice
the baseline) is replaced by 100, and the baseline survives the call. -/
theorem c3_witness :
    ctrlKnown100.knownMaxCargo = some 100 ∧ 2 * (100 : ℚ) < 250 ∧
    validateMax ctrlKnown100.knownMaxCargo 250 = 100 ∧
    (checkCargo true 50 250 0 ctrlKnown100).knownMaxCargo = some 100 := by
  have h := c3_known_max_defended ctrlKnown100 100 50 250 0 true rfl
    (by norm_num) (by norm_num)
  exact ⟨rfl, by norm_num, h.1 (Or.inl (by norm_num)), h.2⟩

/-- C9: whenever the TRAVELING handler completes successfully (it did not
stop the bot and the warp-status wait finished), the post state is
SCANNING; the handler's state assignments are CHECK_CARGO immediately
followed by SCANNING, so CHECK_CARGO is never the observable post state of
a successful TRAVELING tick. -/
theorem c9_traveling_ends_scanning (results : List Entry)
    (warpOpt warpGone : ℕ → Bool) (fuel : ℕ) (s out : CtrlState)
    (trace : List BotState) (_hrun : s.running = true)
    (h : handleTraveling results warpOpt warpGone fuel s = some (out, trace))
    (hok : out.running = true) :
    out.state = BotState.SCANNING ∧
      trace = [BotState.CHECK_CARGO, BotState.SCANNING] ∧
      out.state ≠ BotState.CHECK_CARGO := by
  simp only [handleTraveling] at h
  by_cases hb : results.filter
      (fun e => strContains "asteroid belt" (String.mk (lowerCh e.text.data))) = []
  · rw [if_pos hb, Option.some.injEq, Prod.mk.injEq] at h
    rw [← h.1, stopBot] at hok
    simp at hok
  · rw [if_neg hb] at h
    by_cases hw : warpSearch warpOpt 0 (results.filter
        (fun e => strContains "asteroid belt" (String.mk (lowerCh e.text.data)))).length = true
    · rw [if_pos hw] at h
      cases hwg : waitWarpGone warpGone 0 fuel with
      | none => rw [hwg] at h; exact absurd h (by simp)
      | some u =>
        rw [hwg, Option.some.injEq, Prod.mk.injEq] at h
        refine ⟨?_, h.2.symm, ?_⟩ <;> rw [← h.1] <;> simp
    · rw [if_neg hw, Option.some.injEq, Prod.mk.injEq] at h
      rw [← h.1, stopBot] at hok
      simp at hok

/-- C9 witness: a successful travel tick at concrete inputs ends in
SCANNING with the CHECK_CARGO assignment overwritten. -/
theorem c9_witness :
    ctrlScan.running = true ∧
    handleTraveling [beltEntry] (fun _ => true) (fun _ => true) 1 ctrlScan =
      some ({ ctrlScan with state := BotState.SCANNING },
        [BotState.CHECK_CARGO, BotState.SCANNING]) ∧
    ({ ctrlScan with state := BotState.SCANNING } : CtrlState).running = true ∧
    (({ ctrlScan with state := BotState.SCANNING } : CtrlState).state =
        BotState.SCANNING ∧
      [BotState.CHECK_CARGO, BotState.SCANNING] =
        [BotState.CHECK_CARGO, BotState.SCANNING] ∧
      ({ ctrlScan with state := BotState.SCANNING } : CtrlState).state ≠
        BotState.CHECK_CARGO) := by
  refine ⟨rfl, by decide, rfl, ?_⟩
  exact c9_traveling_ends_scanning [beltEntry] (fun _ => true) (fun _ => true) 1
    ctrlScan _ _ rfl (by decide) rfl

/-- C6 counterexample: when the overview scan of the first locking attempt
finds no asteroids, the handler returns to SCANNING having sent zero lock
commands — so the claim that LOCKING reaches SCANNING exactly when all 3
lock attempts fail (never after fewer) is false as stated. -/
theorem c6_counterexample :
    handleLocking (fun _ => []) (fun _ => true) (fun _ => true) =
      ⟨BotState.SCANNING, 0, 0⟩ := by decide

/-- C6 (amended): provided every per-attempt overview scan finds an
asteroid, the LOCKING handler sends at most 3 lock commands, returns to
SCANNING exactly when all 3 attempts fail (and then with exactly 3 lock
commands and 3 toggles, never fewer, never a 4th), and moves to MINING as
soon as any verification within an attempt confirms the lock (if a scan
finds no asteroids, the handler instead aborts to SCANNING at once without
a lock command). -/
theorem c6_locking_attempts (scans : ℕ → List Entry) (v1 v2 : ℕ → Bool)
    (hscan : ∀ i, i < 3 → (scans i).filter (fun r => r.is_asteroid) ≠ []) :
    (handleLocking scans v1 v2).locks ≤ 3 ∧
    ((handleLocking scans v1 v2).state = BotState.SCANNING ↔
      v1 0 = false ∧ v2 0 = false ∧ v1 1 = false ∧ v2 1 = false ∧
        v1 2 = false ∧ v2 2 = false) ∧
    ((handleLocking scans v1 v2).state = BotState.SCANNING →
      (handleLocking scans v1 v2).locks = 3 ∧
        (handleLocking scans v1 v2).toggles = 3) ∧
    (v1 0 = true → handleLocking scans v1 v2 = ⟨BotState.MINING, 1, 0⟩) ∧
    (v1 0 = false → v2 0 = true →
      handleLocking scans v1 v2 = ⟨BotState.MINING, 1, 1⟩) ∧
    (v1 0 = false → v2 0 = false → v1 1 = true →
      handleLocking scans v1 v2 = ⟨BotState.MINING, 2, 1⟩) ∧
    (v1 0 = false → v2 0 = false → v1 1 = false → v2 1 = true →
      handleLocking scans v1 v2 = ⟨BotState.MINING, 2, 2⟩) ∧
    (v1 0 = false → v2 0 = false → v1 1 = false → v2 1 = false → v1 2 = true →
      handleLocking scans v1 v2 = ⟨BotState.MINING, 3, 2⟩) ∧
    (v1 0 = false → v2 0 = false → v1 1 = false → v2 1 = false →
      v1 2 = false → v2 2 = true →
      handleLocking scans v1 v2 = ⟨BotState.MINING, 3, 3⟩) := by
  have h0 := hscan 0 (by norm_num)
  have h1 := hscan 1 (by norm_num)
  have h2 := hscan 2 (by norm_num)
  simp only [handleLocking, lockLoop, if_neg h0, if_neg h1, if_neg h2]
  split_ifs with ha hb hc hd he hf <;> simp_all

/-- C6 witness: three non-empty scans, the lock confirming on the second
attempt's first verification: MINING after exactly 2 lock commands. -/
theorem c6_witness :
    (∀ i, i < 3 →
      ((fun _ => [astEntry]) i : List Entry).filter (fun r => r.is_asteroid) ≠ []) ∧
    handleLocking (fun _ => [astEntry]) (fun i => i == 1) (fun _ => false) =
      ⟨BotState.MINING, 2, 1⟩ := by
  refine ⟨by decide, ?_⟩
  exact (c6_locking_attempts (fun _ => [astEntry]) (fun i => i == 1)
    (fun _ => false) (by decide)).2.2.2.2.2.1 (by decide) (by decide) (by decide)

/-- C8 counterexample: the code's missing-decimal guard checks only the
*length* of the stripped last comma-group, not that it is four digits: on
the raw max `34,37 0` (last group `37 0`: four characters, not four digits)
the repair fires and the parsed max 34370 is divided by 10, so the claim's
"exactly four digits" biconditional is false as stated. -/
theorem c8_counterexample :
    repairCond "34,37 0".data = true ∧ specRepairCond "34,37 0".data = false ∧
    (tooltipCandidate "HSV" "3,043.0/34,37 0").map CargoResult.max = some 3437 := by
  refine ⟨by decide, by decide, ?_⟩
  have hsl : findSlash [] "3,043.0/34,37 0".data =
      some ("3,043.0".data, "34,37 0".data) := by decide
  have hc : pyFloatParse (fixDots ("3,043.0".data.filter (fun c => !(c = ',' || c = ' ')))) =
      some (30430, 1) := by decide
  have hm : pyFloatParse (fixDots ("34,37 0".data.filter (fun c => !(c = ',' || c = ' ')))) =
      some (34370, 0) := by decide
  have hrc : repairCond "34,37 0".data = true := by decide
  simp only [tooltipCandidate, pyFloatChars, hsl, hc, hm, hrc, Option.map_some', if_true]
  norm_num [decVal, repair2]

/-- C8 (amended): the missing-decimal repair divides the parsed max by 10
exactly when the raw max substring contains a comma, contains no decimal
point, and its last comma-separated group, after stripping surrounding
whitespace, has exactly four characters (digits or internal whitespace);
in particular, for the OCR text `30,049.3/34,3750` the raw max `34,3750`
satisfies the condition and the accepted reading has the corrected max
34375.0 with current 30049.3. -/
theorem c8_missing_decimal_repair :
    (∀ rawMax : List Char,
      repairCond rawMax = true ↔
        (rawMax.contains ',' = true ∧ rawMax.contains '.' = false ∧
          1 < (splitComma (listTrim rawMax)).length ∧
          (listTrim ((splitComma (listTrim rawMax)).getLastD [])).length = 4)) ∧
    (tooltipCandidate "HSV" "30,049.3/34,3750").map CargoResult.max = some 34375 ∧
    (tooltipCandidate "HSV" "30,049.3/34,3750").map CargoResult.current =
      some (300493 / 10) := by
  refine ⟨fun rawMax => ?_, ?_⟩
  · simp [repairCond, Bool.and_eq_true, decide_eq_true_eq, Bool.not_eq_true',
      and_assoc]
  · have hsl : findSlash [] "30,049.3/34,3750".data =
        some ("30,049.3".data, "34,3750".data) := by decide
    have hc : pyFloatParse (fixDots ("30,049.3".data.filter (fun c => !(c = ',' || c = ' ')))) =
        some (300493, 1) := by decide
    have hm : pyFloatParse (fixDots ("34,3750".data.filter (fun c => !(c = ',' || c = ' ')))) =
        some (343750, 0) := by decide
    have hrc : repairCond "34,3750".data = true := by decide
    constructor <;>
      · simp only [tooltipCandidate, pyFloatChars, hsl, hc, hm, hrc,
          Option.map_some', if_true]
        norm_num [decVal, repair2]

/-- C8 witness: the repair-condition characterization applied at the
fixture's raw max substring. -/
theorem c8_witness :
    repairCond "34,3750".data = true ∧
      ("34,3750".data.contains ',' = true ∧ "34,3750".data.contains '.' = false ∧
        1 < (splitComma (listTrim "34,3750".data)).length ∧
        (listTrim ((splitComma (listTrim "34,3750".data)).getLastD [])).length = 4) :=
  ⟨(c8_missing_decimal_repair.1 "34,3750".data).mpr (by decide), by decide⟩

/-- Every candidate accepted into `valid_results` has a positive max, a
percent computed from its own current and max, and a percent at most 105
(the `percent > 105` filter). -/
theorem tooltipCandidate_inv {m t : String} {r : CargoResult}
    (h : tooltipCandidate m t = some r) :
    0 < r.max ∧ r.percent = r.current / r.max * 100 ∧ r.percent ≤ 105 := by
  simp only [tooltipCandidate] at h
  repeat' split at h
  all_goals
    first
    | exact Option.noConfusion h
    | (rw [Option.some.injEq] at h
       subst h
       exact ⟨by assumption, rfl, le_of_not_lt (by assumption)⟩)

/-- The representative chosen by the Dilated/Fixed/any preference is one of
the valid results, or the unreachable-`None` fallback. -/
theorem vrPick_mem (vr : List CargoResult) (w : ℤ) :
    vrPick vr w ∈ vr ∨ vrPick vr w = ⟨0, 0, 0, ""⟩ := by
  unfold vrPick
  split
  · exact Or.inl (List.mem_of_find?_eq_some (by assumption))
  · split
    · exact Or.inl (List.mem_of_find?_eq_some (by assumption))
    · rcases hf : vr.find? (fun r => decide (pyInt r.max = w)) with _ | r
      · right; rw [hf]; rfl
      · left; rw [hf]; exact List.mem_of_find?_eq_some hf

/-- The tuple returned by the voting stage satisfies the cargo invariant
whenever every valid result does. -/
theorem tooltipVote_inv (vr : List CargoResult)
    (hinv : ∀ r ∈ vr, 0 < r.max ∧ r.percent = r.current / r.max * 100 ∧
      r.percent ≤ 105) :
    cargoInv (tooltipVote vr) := by
  rcases vr with _ | ⟨r, _ | ⟨r2, rest⟩⟩
  · exact Or.inl rfl
  · have h := hinv r (by simp)
    exact Or.inr ⟨h.1, h.2.1, h.2.2⟩
  · rcases vrPick_mem (r :: r2 :: rest) (tooltipWinner (r :: r2 :: rest)) with hm | he
    · have h := hinv _ hm
      exact Or.inr ⟨h.1, h.2.1, h.2.2⟩
    · left
      show (_, _, _) = ((0 : ℚ), (0 : ℚ), (0 : ℚ))
      rw [he]

/-- C2: every cargo reading surfaced by `read_inventory_tooltip` is either
the failure sentinel `(0, 0, 0)` or satisfies `percent = current/max*100`
with `percent ≤ 105` (candidates above 105% are discarded); and
`_check_cargo` ignores the tooltip's percent entirely, recomputing it from
the validated current and max before acting. -/
theorem c2_cargo_reading_invariant (texts : List (String × String))
    (configured : Bool) (curr maxRead p q : ℚ) (s : CtrlState) :
    cargoInv (readInventoryTooltip texts) ∧
    checkCargo configured curr maxRead p s = checkCargo configured curr maxRead q s := by
  constructor
  · apply tooltipVote_inv
    intro r hr
    obtain ⟨a, _, ha⟩ := List.mem_filterMap.mp hr
    exact tooltipCandidate_inv ha
  · rfl

/-- On a y-sorted pooled list whose y-coordinates are distinct, the weak
`yLE` sortedness upgrades to strict `yLT` sortedness. -/
theorem sorted_yLT_of (s : List Entry) (hs : List.Sorted yLE s)
    (hn : (s.map Entry.y).Nodup) : List.Sorted yLT s := by
  have hne : List.Pairwise (fun a b : Entry => a.y ≠ b.y) s := List.pairwise_map.mp hn
  exact (hs.and hne).imp fun h => lt_of_le_of_ne h.1 h.2

/-- C4 counterexample: two pooled detections on the same row (equal y),
both named ores with texts of equal length, are reconciled to different
representatives depending on the input order — the same pooled multiset,
permuted, yields a different final row set, so order-invariance is false
as stated. -/
theorem c4_counterexample :
    ([rowVeld, rowScord] : List Entry).Perm [rowScord, rowVeld] ∧
    scanReconcile [rowVeld, rowScord] ≠ scanReconcile [rowScord, rowVeld] := by
  decide

/-- C4 (amended): the row reconciliation of `scan_overview` is invariant
under permutation of the pooled detections whenever their y-coordinates are
pairwise distinct (with duplicate y-coordinates the stable sort preserves
input order inside a row, and a tie in the priority rule's text length can
make the chosen representative depend on that order). -/
theorem c4_reconcile_perm_invariant (l1 l2 : List Entry) (hperm : l1.Perm l2)
    (hnd : (l1.map Entry.y).Nodup) : scanReconcile l1 = scanReconcile l2 := by
  have hs1 : List.Sorted yLE (sortEntries l1) := List.sorted_insertionSort yLE l1
  have hs2 : List.Sorted yLE (sortEntries l2) := List.sorted_insertionSort yLE l2
  have hp12 : (sortEntries l1).Perm (sortEntries l2) :=
    ((List.perm_insertionSort yLE l1).trans hperm).trans
      (List.perm_insertionSort yLE l2).symm
  have hn1 : ((sortEntries l1).map Entry.y).Nodup :=
    ((List.perm_insertionSort yLE l1).map Entry.y).nodup_iff.mpr hnd
  have hn2 : ((sortEntries l2).map Entry.y).Nodup :=
    ((hp12.map Entry.y).nodup_iff).mp hn1
  have hsort : sortEntries l1 = sortEntries l2 :=
    List.eq_of_perm_of_sorted hp12 (sorted_yLT_of _ hs1 hn1) (sorted_yLT_of _ hs2 hn2)
  unfold scanReconcile
  rw [hsort]

/-- C4 witness: two detections with distinct y reconcile identically in
either order. -/
theorem c4_witness :
    ([rowVeld, rowFar] : List Entry).Perm [rowFar, rowVeld] ∧
    ([rowVeld, rowFar].map Entry.y).Nodup ∧
    scanReconcile [rowVeld, rowFar] = scanReconcile [rowFar, rowVeld] :=
  ⟨by decide, by decide, c4_reconcile_perm_invariant _ _ (by decide) (by decide)⟩

/-- In exact mode the token scan never updates the fuzzy state: the
single-word branch compares for equality only, and the multi-word branch
has no fuzzy path at all. -/
theorem findLoop_exact_snd (ratio : List Char → List Char → ℚ)
    (tgt : List Char) (ws : List (List Char)) (toks : List Token)
    (best : Fuzzy) : (findLoop ratio tgt ws true toks best).2 = best := by
  rcases ws with _ | ⟨w, _ | ⟨w1, ws'⟩⟩
  · induction toks generalizing best with
    | nil => rfl
    | cons tok rest ih =>
      simp only [findLoop]
      split
      · exact ih best
      · rfl
  · induction toks generalizing best with
    | nil => rfl
    | cons tok rest ih =>
      simp only [findLoop, if_true]
      split
      · exact ih best
      · split
        · rfl
        · exact ih best
  · induction toks generalizing best with
    | nil => rfl
    | cons tok rest ih =>
      simp only [findLoop]
      split
      · exact ih best
      · split
        · rfl
        · exact ih best

/-- In exact mode the token found by the scan does not depend on the
similarity oracle or on the incoming fuzzy state. -/
theorem findLoop_exact_fst (ratio ratio' : List Char → List Char → ℚ)
    (tgt : List Char) (ws : List (List Char)) (toks : List Token)
    (best best' : Fuzzy) :
    (findLoop ratio tgt ws true toks best).1 =
      (findLoop ratio' tgt ws true toks best').1 := by
  rcases ws with _ | ⟨w, _ | ⟨w1, ws'⟩⟩
  · induction toks generalizing best best' with
    | nil => rfl
    | cons tok rest ih =>
      simp only [findLoop]
      split
      · exact ih best best'
      · rfl
  · induction toks generalizing best best' with
    | nil => rfl
    | cons tok rest ih =>
      simp only [findLoop, if_true]
      split
      · exact ih best best'
      · split
        · rfl
        · exact ih best best'
  · induction toks generalizing best best' with
    | nil => rfl
    | cons tok rest ih =>
      simp only [findLoop]
      split
      · exact ih best best'
      · split
        · rfl
        · exact ih best best'

/-- In exact mode with a single-word target, a token is matched only when
its stripped, lowercased text equals the lowercased target character for
character. -/
theorem findLoop_exact_single (ratio : List Char → List Char → ℚ)
    (tgt w : List Char) (toks : List Token) (best : Fuzzy) (tok : Token)
    (h : (findLoop ratio tgt [w] true toks best).1 = some tok) :
    tok ∈ toks ∧ lowerCh (listTrim tok.text.data) = tgt := by
  induction toks generalizing best with
  | nil => exact Option.noConfusion h
  | cons t rest ih =>
    simp only [findLoop, if_true] at h
    split at h
    · have := ih best h
      exact ⟨List.mem_cons_of_mem t this.1, this.2⟩
    · split at h
      · have h2 : t = tok := by simpa using h
        subst h2
        exact ⟨List.mem_cons_self t rest, by assumption⟩
      · have := ih best h
        exact ⟨List.mem_cons_of_mem t this.1, this.2⟩

/-- In exact mode the whole pass iteration is independent of the similarity
oracle, for any threaded fuzzy state. -/
theorem findTextGo_exact_ratio (ratio ratio' : List Char → List Char → ℚ)
    (tgt : List Char) (ws : List (List Char))
    (region : Int × Int × Int × Int) (passes : List (List Token))
    (best : Fuzzy) :
    findTextGo ratio tgt ws true region passes best =
      findTextGo ratio' tgt ws true region passes best := by
  induction passes generalizing best with
  | nil => rfl
  | cons p ps ih =>
    simp only [findTextGo]
    rcases e : findLoop ratio tgt ws true p best with ⟨r1, b1⟩
    have hb : b1 = best := by
      have h := findLoop_exact_snd ratio tgt ws p best
      rw [e] at h
      exact h
    rw [hb] at e
    have e' : findLoop ratio' tgt ws true p best = (r1, best) := by
      rcases e2 : findLoop ratio' tgt ws true p best with ⟨r2, b2⟩
      have hf := findLoop_exact_fst ratio' ratio tgt ws p best best
      have hs := findLoop_exact_snd ratio' tgt ws p best
      rw [e2] at hf hs
      rw [e] at hf
      simp only at hf hs
      rw [hf, hs]
    rw [hb, e']
    cases r1 with
    | some tok => rfl
    | none => exact ih best

/-- In exact mode with a single-word target, a returned location is the
center of some detected token whose stripped, lowercased text equals the
lowercased target, provided the threaded fuzzy state is still empty. -/
theorem findTextGo_exact_single (ratio : List Char → List Char → ℚ)
    (tgt w : List Char) (region : Int × Int × Int × Int)
    (passes : List (List Token)) (c : Int × Int)
    (h : findTextGo ratio tgt [w] true region passes ⟨0, none⟩ = some c) :
    ∃ p ∈ passes, ∃ tok ∈ p,
      lowerCh (listTrim tok.text.data) = tgt ∧ c = tokenCenter region tok := by
  induction passes with
  | nil => exact Option.noConfusion h
  | cons p ps ih =>
    simp only [findTextGo] at h
    rcases e : findLoop ratio tgt [w] true p ⟨0, none⟩ with ⟨r1, b1⟩
    have hb : b1 = ⟨0, none⟩ := by
      have := findLoop_exact_snd ratio tgt [w] p ⟨0, none⟩
      rw [e] at this
      exact this
    rw [e] at h
    cases r1 with
    | some tok =>
      have hm := findLoop_exact_single ratio tgt w p ⟨0, none⟩ tok (by rw [e])
      rw [Option.some.injEq] at h
      exact ⟨p, List.mem_cons_self p ps, tok, hm.1, hm.2, h.symm⟩
    | none =>
      subst hb
      obtain ⟨p2, hp2, tok, htok, heq, hc⟩ := ih h
      exact ⟨p2, List.mem_cons_of_mem p hp2, tok, htok, heq, hc⟩

/-- C1 counterexample: with `exact_match=true` and the multi-word target
`Warp to`, the detected tokens `Warping`, `tomorrow` — neither of which
equals a target word — still produce a location, because the multi-word
branch of `find_text_in_region` (vision.py, lines 781-805) tests per-word
substring containment and never consults `exact_match`.  So "a location is
returned only when a token sequence equals the target character for
character" is false as stated. -/
theorem c1_counterexample :
    findTextInRegion (fun _ _ => 0) [[tokWarping, tokTomorrow]] (0, 0, 400, 400)
      "Warp to" true = some (25, 21) ∧
    lowerCh (listTrim tokWarping.text.data) ≠ "warp".data ∧
    lowerCh (listTrim tokWarping.text.data) ≠ "warp to".data ∧
    lowerCh (listTrim tokTomorrow.text.data) ≠ "to".data := by decide

/-- C1 (amended): in exact mode no fuzzy path is reachable — the result of
`find_text_in_region` does not depend on the similarity oracle at all —
and a single-word target is located only at a token whose stripped,
lowercased text equals the lowercased target character for character; a
multi-word target, however, is matched by per-word substring containment
over consecutive non-empty tokens, in exact and non-exact mode alike. -/
theorem c1_exact_match (ratio ratio' : List Char → List Char → ℚ)
    (passes : List (List Token)) (region : Int × Int × Int × Int)
    (targetText : String) :
    findTextInRegion ratio passes region targetText true =
      findTextInRegion ratio' passes region targetText true ∧
    (∀ w c, pyWords (lowerCh targetText.data) = [w] →
      findTextInRegion ratio passes region targetText true = some c →
      ∃ p ∈ passes, ∃ tok ∈ p,
        lowerCh (listTrim tok.text.data) = lowerCh targetText.data ∧
        c = tokenCenter region tok) := by
  constructor
  · exact findTextGo_exact_ratio ratio ratio' (lowerCh targetText.data)
      (pyWords (lowerCh targetText.data)) region passes ⟨0, none⟩
  · intro w c hw h
    simp only [findTextInRegion] at h
    rw [hw] at h
    exact findTextGo_exact_single ratio (lowerCh targetText.data) w region passes c h

/-- C1 witness: an exact single-word search at a concrete token list, with
two different similarity oracles, returns the same location, and that
location comes from a token equal to the target. -/
theorem c1_witness :
    pyWords (lowerCh "Undock".data) = ["undock".data] ∧
    findTextInRegion (fun _ _ => 0) [[tokUndock]] (0, 0, 400, 400)
      "Undock" true = some (25, 21) ∧
    (∃ p ∈ [[tokUndock]], ∃ tok ∈ p,
      lowerCh (listTrim tok.text.data) = lowerCh "Undock".data ∧
      ((25 : Int), (21 : Int)) = tokenCenter (0, 0, 400, 400) tok) := by
  refine ⟨by decide, by decide, ?_⟩
  exact (c1_exact_match (fun _ _ => 0) (fun _ _ => 1) [[tokUndock]]
    (0, 0, 400, 400) "Undock").2 "undock".data (25, 21) (by decide) (by decide)

end EVEMI
